import Mathlib

/-!
# SentraLog — verification of the core pipeline

A shallow embedding of the SentraLog access-log analysis pipeline
(`src/preprocessing.py`, `src/detectors.py`, `src/classification.py`,
`src/orchestrator.py`, `util/schema.py`) together with theorems settling
the specification's claims about it.

Conventions of the embedding:
* Python dicts with insertion order (grouped logs, the threshold table)
  become association lists `List (key × value)`.
* Optional fields (`str | None`) become `Option`.
* Python code that can raise becomes `Except String` (the string is the
  exception message); code that cannot raise stays pure.
* Python `int` becomes `Int` where negative values are representable
  (frequencies), `Nat` where the source guarantees digits (status codes).
-/

/-! ## Data model (`util/schema.py`) -/

/-- `Severity(IntEnum)`: LOW = -1, MEDIUM = 0, HIGH = 1. -/
inductive Severity where
  | LOW
  | MEDIUM
  | HIGH
deriving DecidableEq, Repr

/-- The numeric value of the `IntEnum` member. -/
def Severity.toInt : Severity → Int
  | .LOW => -1
  | .MEDIUM => 0
  | .HIGH => 1

/-- `Schema` (TypedDict): one normalized NGINX access-log entry. -/
structure Schema where
  remote_addr : String
  remote_user : Option String
  time_local : String
  timestamp : String
  request : String
  status : Nat
  body_bytes_sent : Option Int
  http_referer : Option String
  http_user_agent : Option String
deriving DecidableEq, Repr

/-- `DetectionResult` (TypedDict).  The dict literals the detectors build
carry only `name`, `freq` and `matches`; the `severity` key is written
later (or never) by the classifier, so it is modelled as an `Option` with
`none` for an absent key. -/
structure DetectionResult where
  name : String
  freq : Int
  «matches» : List Schema
  severity : Option Severity
deriving DecidableEq, Repr

/-- Grouped logs: the Python dict `remote_addr -> list[Schema]`, as an
insertion-ordered association list. -/
abbrev GroupedLogs := List (String × List Schema)

/-! ## Severity classifier (`src/classification.py`) -/

/-- The module-level `THRESHOLDS` dict: rule name → (low, medium, high). -/
def THRESHOLDS : List (String × (Int × Int × Int)) :=
  [("brute_force", (5, 7, 10)),
   ("sql_injection", (5, 7, 10)),
   ("scan_pattern", (5, 7, 10))]

/-- One iteration of the loop body of `Classifier.classify`: skip when
`freq <= 0`, skip (after a printed diagnostic, a side effect not modelled)
when the rule name has no threshold entry, otherwise write `severity`
when `freq >= high_t` or `freq >= med_t`.  The Python loop mutates each
`detection` dict in place using nothing but that dict, so the whole
`classify` is the per-element function mapped over the list. -/
def Classifier.classifyOne (detection : DetectionResult) : DetectionResult :=
  if detection.freq ≤ 0 then detection
  else
    match THRESHOLDS.lookup detection.name with
    | none => detection
    | some (_low_t, med_t, high_t) =>
      if high_t ≤ detection.freq then { detection with severity := some Severity.HIGH }
      else if med_t ≤ detection.freq then { detection with severity := some Severity.MEDIUM }
      else detection

/-- `Classifier.classify`: the loop over `self.detections`, returning the
same list (mutated in place in Python). -/
def Classifier.classify (detections : List DetectionResult) : List DetectionResult :=
  detections.map Classifier.classifyOne

/-! ### Classifier lemmas -/

theorem classifyOne_skip_of_nonpos {d : DetectionResult} (h : d.freq ≤ 0) :
    Classifier.classifyOne d = d := by
  simp [Classifier.classifyOne, h]

theorem classifyOne_skip_of_unknown {d : DetectionResult}
    (h : THRESHOLDS.lookup d.name = none) :
    Classifier.classifyOne d = d := by
  unfold Classifier.classifyOne
  split
  · rfl
  · rw [h]

theorem classifyOne_of_thresholds {d : DetectionResult} {lo me hi : Int}
    (hpos : 0 < d.freq) (hlk : THRESHOLDS.lookup d.name = some (lo, me, hi)) :
    Classifier.classifyOne d =
      (if hi ≤ d.freq then { d with severity := some Severity.HIGH }
       else if me ≤ d.freq then { d with severity := some Severity.MEDIUM }
       else d) := by
  unfold Classifier.classifyOne
  rw [if_neg (by omega), hlk]

theorem classifyOne_idem (d : DetectionResult) :
    Classifier.classifyOne (Classifier.classifyOne d) = Classifier.classifyOne d := by
  by_cases h0 : d.freq ≤ 0
  · rw [classifyOne_skip_of_nonpos h0, classifyOne_skip_of_nonpos h0]
  · have hpos : 0 < d.freq := by omega
    cases hlk : THRESHOLDS.lookup d.name with
    | none => rw [classifyOne_skip_of_unknown hlk, classifyOne_skip_of_unknown hlk]
    | some t =>
      obtain ⟨lo, me, hi⟩ := t
      rw [classifyOne_of_thresholds hpos hlk]
      by_cases hh : hi ≤ d.freq
      · rw [if_pos hh,
          classifyOne_of_thresholds (d := { d with severity := some Severity.HIGH }) hpos hlk,
          if_pos hh]
      · rw [if_neg hh]
        by_cases hm : me ≤ d.freq
        · rw [if_pos hm,
            classifyOne_of_thresholds (d := { d with severity := some Severity.MEDIUM }) hpos hlk,
            if_neg hh, if_pos hm]
        · rw [if_neg hm, classifyOne_of_thresholds hpos hlk, if_neg hh, if_neg hm]

/-- Every entry of the fixed threshold table is `(5, 7, 10)`. -/
theorem lookup_THRESHOLDS_eq {n : String} {t : Int × Int × Int}
    (h : THRESHOLDS.lookup n = some t) : t = (5, 7, 10) := by
  simp only [THRESHOLDS, List.lookup] at h
  repeat' split at h
  all_goals simp_all

/-! ## Record normalizer (`src/preprocessing.py`)

`build_schema` is `re.match` with the fixed combined-log pattern, then
`datetime.strptime(..., "%d/%b/%Y:%H:%M:%S %z").isoformat()`, then the
construction of the `Schema` dict.  The regex is deterministic — every
quantified class excludes the character that follows it — so it is
embedded as a sequential parser with the exact same acceptance
behaviour; `re.match` anchors at the start only, trailing input (such as
the newline `readlines` keeps) is ignored. -/

/-- The characters of Python's `\s` for ASCII input (`str.strip()` strips
the same set). -/
def isPySpace (c : Char) : Bool :=
  c = ' ' || c = '\t' || c = '\n' || c = '\r' || c = '\x0b' || c = '\x0c'

/-- Python `not log.strip()`: the line has no non-whitespace character. -/
def blankLine (log : String) : Bool := log.data.all isPySpace

/-- `match.groupdict()`: the eight named groups of `LOG_PATTERN`, still
as raw text. -/
structure LogGroups where
  remote_addr : String
  remote_user : String
  time_local : String
  request : String
  status : String
  body_bytes_sent : String
  http_referer : String
  http_user_agent : String
deriving DecidableEq, Repr

/-- `\S+ `: a maximal nonempty run of non-whitespace characters, then
one literal space (`\S` cannot match the space, so the greedy run needs
no backtracking). -/
def takeTok (cs : List Char) : Option (String × List Char) :=
  let tok := cs.takeWhile (fun c => !isPySpace c)
  if tok.isEmpty then none
  else
    match cs.drop tok.length with
    | ' ' :: rest => some (⟨tok⟩, rest)
    | _ => none

/-- `\[[^\]]+\] `. -/
def takeBracket : List Char → Option (String × List Char)
  | '[' :: r =>
    let tok := r.takeWhile (fun c => c ≠ ']')
    if tok.isEmpty then none
    else
      match r.drop tok.length with
      | ']' :: ' ' :: rest => some (⟨tok⟩, rest)
      | _ => none
  | _ => none

/-- `"[^"]*"`. -/
def takeQuoted : List Char → Option (String × List Char)
  | '"' :: r =>
    let tok := r.takeWhile (fun c => c ≠ '"')
    match r.drop tok.length with
    | '"' :: rest => some (⟨tok⟩, rest)
    | _ => none
  | _ => none

/-- One required literal character. -/
def expectChar (c : Char) : List Char → Option (List Char)
  | x :: rest => if x = c then some rest else none
  | [] => none

/-- `\d{3} `: exactly three digits, then one literal space. -/
def takeStatus : List Char → Option (String × List Char)
  | a :: b :: c :: ' ' :: rest =>
    if a.isDigit && b.isDigit && c.isDigit then some (⟨[a, b, c]⟩, rest) else none
  | _ => none

/-- `LOG_PATTERN.match(log)`: the full combined-log pattern, anchored at
the start of the line. -/
def logMatch (log : String) : Option LogGroups := do
  let (remote_addr, r1) ← takeTok log.data
  let (_ident, r2) ← takeTok r1
  let (remote_user, r3) ← takeTok r2
  let (time_local, r4) ← takeBracket r3
  let (request, r5) ← takeQuoted r4
  let r6 ← expectChar ' ' r5
  let (status, r7) ← takeStatus r6
  let (body_bytes_sent, r8) ← takeTok r7
  let (http_referer, r9) ← takeQuoted r8
  let r10 ← expectChar ' ' r9
  let (http_user_agent, _r11) ← takeQuoted r10
  return ⟨remote_addr, remote_user, time_local, request,
          status, body_bytes_sent, http_referer, http_user_agent⟩

/-! ### `datetime.strptime` with format `%d/%b/%Y:%H:%M:%S %z` -/

/-- An aware datetime: the parsed fields plus the UTC offset in
minutes. -/
structure DT where
  year : Nat
  month : Nat
  day : Nat
  hour : Nat
  minute : Nat
  second : Nat
  offMin : Int
deriving DecidableEq, Repr

/-- The value of a digit character. -/
def dv (c : Char) : Nat := c.toNat - 48

/-- `%d`, the regex `3[01]|[12]\d|0[1-9]|[1-9]| [1-9]`: a two-digit day
01–31, a bare digit 1–9, or a space-padded digit. -/
def parseDay : List Char → Option (Nat × List Char)
  | ' ' :: c :: r => if c.isDigit && c ≠ '0' then some (dv c, r) else none
  | a :: b :: r =>
    if a.isDigit then
      if b.isDigit &&
          (let v := dv a * 10 + dv b
           decide ((30 ≤ v ∧ v ≤ 31) ∨ (10 ≤ v ∧ v ≤ 29) ∨ (1 ≤ v ∧ v ≤ 9))) then
        some (dv a * 10 + dv b, r)
      else if a ≠ '0' then some (dv a, b :: r) else none
    else none
  | [a] => if a.isDigit && a ≠ '0' then some (dv a, []) else none
  | [] => none

/-- `%b`: the case-insensitive month abbreviations (`strptime` compiles
its pattern with `IGNORECASE`). -/
def monthAbbrevs : List (String × Nat) :=
  [("jan", 1), ("feb", 2), ("mar", 3), ("apr", 4), ("may", 5), ("jun", 6),
   ("jul", 7), ("aug", 8), ("sep", 9), ("oct", 10), ("nov", 11), ("dec", 12)]

def parseMonth : List Char → Option (Nat × List Char)
  | a :: b :: c :: rest =>
    match monthAbbrevs.lookup (String.mk [a.toLower, b.toLower, c.toLower]) with
    | some n => some (n, rest)
    | none => none
  | _ => none

/-- `%Y`: exactly four digits. -/
def parseYear : List Char → Option (Nat × List Char)
  | a :: b :: c :: d :: rest =>
    if a.isDigit && b.isDigit && c.isDigit && d.isDigit then
      some (dv a * 1000 + dv b * 100 + dv c * 10 + dv d, rest)
    else none
  | _ => none

/-- `%H`, the regex `2[0-3]|[0-1]\d|\d`: two digits up to 23, else one
digit (when the two-digit branch matches, its second character is a
digit, so the one-digit branch could never also lead to a full match —
the committed choice loses no input the regex would accept). -/
def parseHour : List Char → Option (Nat × List Char)
  | a :: b :: r =>
    if a.isDigit then
      if b.isDigit && decide (dv a * 10 + dv b ≤ 23) then some (dv a * 10 + dv b, r)
      else some (dv a, b :: r)
    else none
  | [a] => if a.isDigit then some (dv a, []) else none
  | [] => none

/-- `%M`, the regex `[0-5]\d|\d`. -/
def parseMin : List Char → Option (Nat × List Char)
  | a :: b :: r =>
    if a.isDigit then
      if b.isDigit && decide (dv a ≤ 5) then some (dv a * 10 + dv b, r)
      else some (dv a, b :: r)
    else none
  | [a] => if a.isDigit then some (dv a, []) else none
  | [] => none

/-- `%S`, the regex `6[0-1]|[0-5]\d|\d` (the leap-second values 60 and
61 pass the regex; the `datetime` constructor rejects them later). -/
def parseSec : List Char → Option (Nat × List Char)
  | a :: b :: r =>
    if a.isDigit then
      if b.isDigit && decide (dv a ≤ 5 ∨ (dv a = 6 ∧ dv b ≤ 1)) then
        some (dv a * 10 + dv b, r)
      else some (dv a, b :: r)
    else none
  | [a] => if a.isDigit then some (dv a, []) else none
  | [] => none

/-- `%z` in the combined-log shape `[+-]\d\d\d\d`, required to end the
string (`strptime` rejects unconverted trailing data); the resulting
`timezone` requires a magnitude strictly below 24 hours. -/
def parseZEnd : List Char → Option Int
  | [sg, a, b, c, d] =>
    if (sg = '+' || sg = '-') && a.isDigit && b.isDigit && c.isDigit && d.isDigit then
      let total : Nat := (dv a * 10 + dv b) * 60 + (dv c * 10 + dv d)
      if total < 1440 then some (if sg = '-' then -(total : Int) else (total : Int))
      else none
    else none
  | _ => none

/-- `d % 4 == 0 and (d % 100 != 0 or d % 400 == 0)`. -/
def isLeap (y : Nat) : Bool := y % 4 = 0 && (y % 100 ≠ 0 || y % 400 = 0)

def daysInMonth (y m : Nat) : Nat :=
  if m = 2 then (if isLeap y then 29 else 28)
  else if m = 4 || m = 6 || m = 9 || m = 11 then 30
  else 31

/-- `datetime.strptime(s, "%d/%b/%Y:%H:%M:%S %z")`: the format's regex,
wholly consuming the string, followed by the `datetime` constructor's
range validation (year at least 1, day within the month, second at most
59). -/
def strptime (s : String) : Option DT := do
  let (day, r1) ← parseDay s.data
  let r2 ← expectChar '/' r1
  let (month, r3) ← parseMonth r2
  let r4 ← expectChar '/' r3
  let (year, r5) ← parseYear r4
  let r6 ← expectChar ':' r5
  let (hour, r7) ← parseHour r6
  let r8 ← expectChar ':' r7
  let (minute, r9) ← parseMin r8
  let r10 ← expectChar ':' r9
  let (second, r11) ← parseSec r10
  let r12 ← expectChar ' ' r11
  let offMin ← parseZEnd r12
  if 1 ≤ year ∧ day ≤ daysInMonth year month ∧ second ≤ 59 then
    return ⟨year, month, day, hour, minute, second, offMin⟩
  else none

/-! ### `datetime.isoformat()` -/

/-- Two-digit zero-padded decimal (`f"{n:02d}"` for the values that
occur). -/
def pad2 (n : Nat) : String :=
  if n < 100 then ⟨[Nat.digitChar (n / 10), Nat.digitChar (n % 10)]⟩ else toString n

/-- Four-digit zero-padded decimal (`f"{n:04d}"` for the values that
occur). -/
def pad4 (n : Nat) : String :=
  if n < 10000 then
    ⟨[Nat.digitChar (n / 1000), Nat.digitChar (n / 100 % 10),
      Nat.digitChar (n / 10 % 10), Nat.digitChar (n % 10)]⟩
  else toString n

/-- The `±HH:MM` suffix `isoformat` renders for an aware datetime. -/
def offsetStr (off : Int) : String :=
  (if off < 0 then "-" else "+") ++ pad2 (off.natAbs / 60) ++ ":" ++ pad2 (off.natAbs % 60)

/-- `datetime.isoformat()` for a whole-second aware datetime:
`YYYY-MM-DDTHH:MM:SS±HH:MM`. -/
def isoformat (dt : DT) : String :=
  pad4 dt.year ++ "-" ++ pad2 dt.month ++ "-" ++ pad2 dt.day ++ "T" ++
  pad2 dt.hour ++ ":" ++ pad2 dt.minute ++ ":" ++ pad2 dt.second ++ offsetStr dt.offMin

/-- The value of a digit run (`int()` on text the pattern guarantees to
be digits). -/
def digitsNat (cs : List Char) : Nat := cs.foldl (fun acc c => acc * 10 + dv c) 0

/-- Python `int(s)` on arbitrary `\S+` text: an optional sign followed by
at least one digit, else a `ValueError`. -/
def pyInt (s : String) : Option Int :=
  match s.data with
  | '+' :: rest =>
    if rest ≠ [] && rest.all Char.isDigit then some (digitsNat rest : Int) else none
  | '-' :: rest =>
    if rest ≠ [] && rest.all Char.isDigit then some (-(digitsNat rest : Int)) else none
  | cs =>
    if cs ≠ [] && cs.all Char.isDigit then some (digitsNat cs : Int) else none

/-- The `Schema(...)` constructor call of `build_schema`: each literal
`"-"` maps to `None`, the status text becomes an integer, the timestamp
becomes `dt.isoformat()`. -/
def schemaOf (d : LogGroups) (dt : DT) : Schema :=
  { remote_addr := d.remote_addr,
    remote_user := if d.remote_user = "-" then none else some d.remote_user,
    time_local := d.time_local,
    timestamp := isoformat dt,
    request := d.request,
    status := digitsNat d.status.data,
    body_bytes_sent := if d.body_bytes_sent = "-" then none else pyInt d.body_bytes_sent,
    http_referer := if d.http_referer = "-" then none else some d.http_referer,
    http_user_agent := if d.http_user_agent = "-" then none else some d.http_user_agent }

/-- The tail of `build_schema` once the pattern has matched:
`datetime.strptime` may raise on the bracketed timestamp, `int` may
raise on a non-numeric non-`-` size, else the record is built. -/
def finishSchema (d : LogGroups) : Except String (Option Schema) :=
  match strptime d.time_local with
  | none => .error ("time data " ++ d.time_local ++
      " does not match format %d/%b/%Y:%H:%M:%S %z")
  | some dt =>
    if d.body_bytes_sent ≠ "-" ∧ pyInt d.body_bytes_sent = none then
      .error ("invalid literal for int() with base 10: " ++ d.body_bytes_sent)
    else .ok (some (schemaOf d dt))

/-- `build_schema`: skip a blank line (`.ok none`); raise
`ValueError(f"Could not parse log line: {log}")` when the pattern does
not match; otherwise continue with the matched groups. -/
def build_schema (log : String) : Except String (Option Schema) :=
  if blankLine log then .ok none
  else
    match logMatch log with
    | none => .error ("Could not parse log line: " ++ log)
    | some d => finishSchema d

theorem build_schema_blank {log : String} (hb : blankLine log = true) :
    build_schema log = .ok none := by
  rw [build_schema, if_pos hb]

theorem build_schema_nomatch {log : String} (hb : blankLine log = false)
    (hm : logMatch log = none) :
    build_schema log = .error ("Could not parse log line: " ++ log) := by
  rw [build_schema, if_neg (by simp [hb]), hm]

theorem build_schema_matched {log : String} {d : LogGroups}
    (hb : blankLine log = false) (hm : logMatch log = some d) :
    build_schema log = finishSchema d := by
  rw [build_schema, if_neg (by simp [hb]), hm]

theorem finishSchema_badtime {d : LogGroups} (hs : strptime d.time_local = none) :
    finishSchema d = .error ("time data " ++ d.time_local ++
      " does not match format %d/%b/%Y:%H:%M:%S %z") := by
  rw [finishSchema, hs]

theorem finishSchema_badsize {d : LogGroups} {dt : DT}
    (hs : strptime d.time_local = some dt)
    (hbb : d.body_bytes_sent ≠ "-" ∧ pyInt d.body_bytes_sent = none) :
    finishSchema d = .error ("invalid literal for int() with base 10: " ++
      d.body_bytes_sent) := by
  rw [finishSchema, hs]
  exact if_pos hbb

theorem finishSchema_ok {d : LogGroups} {dt : DT}
    (hs : strptime d.time_local = some dt)
    (hbb : ¬(d.body_bytes_sent ≠ "-" ∧ pyInt d.body_bytes_sent = none)) :
    finishSchema d = .ok (some (schemaOf d dt)) := by
  rw [finishSchema, hs]
  exact if_neg hbb

/-! ### Reading the UTC offset back off an ISO-8601 string -/

/-- The signed offset minutes encoded by the trailing `±HH:MM` of an
ISO-8601 timestamp, if the string ends in that shape. -/
def isoOffsetMin (s : String) : Option Int :=
  match s.data.reverse with
  | m0 :: m1 :: c :: h0 :: h1 :: sg :: _ =>
    if c = ':' && h0.isDigit && h1.isDigit && m0.isDigit && m1.isDigit &&
        (sg = '+' || sg = '-') then
      let v : Int := ((dv h1) * 10 + dv h0) * 60 + ((dv m1) * 10 + dv m0)
      some (if sg = '-' then -v else v)
    else none
  | _ => none

theorem digitChar_isDigit : ∀ k < 10, (Nat.digitChar k).isDigit = true := by decide

theorem dv_digitChar : ∀ k < 10, dv (Nat.digitChar k) = k := by decide

theorem pad2_data {n : Nat} (h : n < 100) :
    (pad2 n).data = [Nat.digitChar (n / 10), Nat.digitChar (n % 10)] := by
  unfold pad2
  rw [if_pos h]

/-- Rendering an offset of magnitude below 24 hours and reading it back
is the identity. -/
theorem isoOffsetMin_isoformat (dt : DT) (h : dt.offMin.natAbs < 1440) :
    isoOffsetMin (isoformat dt) = some dt.offMin := by
  have hh : dt.offMin.natAbs / 60 < 100 := by omega
  have hm : dt.offMin.natAbs % 60 < 100 := by omega
  have hh10 : dt.offMin.natAbs / 60 / 10 < 10 := by omega
  have hh1 : dt.offMin.natAbs / 60 % 10 < 10 := by omega
  have hm10 : dt.offMin.natAbs % 60 / 10 < 10 := by omega
  have hm1 : dt.offMin.natAbs % 60 % 10 < 10 := by omega
  have hdata : (isoformat dt).data =
      (pad4 dt.year ++ "-" ++ pad2 dt.month ++ "-" ++ pad2 dt.day ++ "T" ++
        pad2 dt.hour ++ ":" ++ pad2 dt.minute ++ ":" ++ pad2 dt.second).data ++
      ((if dt.offMin < 0 then "-" else "+").data ++
        ((pad2 (dt.offMin.natAbs / 60)).data ++ ([':'] ++ (pad2 (dt.offMin.natAbs % 60)).data))) := by
    simp [isoformat, offsetStr, String.data_append]
  rw [isoOffsetMin, hdata, pad2_data hh, pad2_data hm]
  by_cases hneg : dt.offMin < 0
  · rw [if_pos hneg]
    simp only [show ("-" : String).data = ['-'] from rfl, List.reverse_append,
      List.reverse_cons, List.reverse_nil, List.nil_append, List.cons_append,
      List.append_assoc]
    rw [if_pos (by
      simp [digitChar_isDigit _ hh10, digitChar_isDigit _ hh1,
        digitChar_isDigit _ hm10, digitChar_isDigit _ hm1])]
    simp only [dv_digitChar _ hh10, dv_digitChar _ hh1, dv_digitChar _ hm10,
      dv_digitChar _ hm1, eq_self_iff_true, ite_true]
    congr 1
    omega
  · rw [if_neg hneg]
    simp only [show ("+" : String).data = ['+'] from rfl, List.reverse_append,
      List.reverse_cons, List.reverse_nil, List.nil_append, List.cons_append,
      List.append_assoc]
    rw [if_pos (by
      simp [digitChar_isDigit _ hh10, digitChar_isDigit _ hh1,
        digitChar_isDigit _ hm10, digitChar_isDigit _ hm1])]
    simp only [dv_digitChar _ hh10, dv_digitChar _ hh1, dv_digitChar _ hm10,
      dv_digitChar _ hm1]
    rw [if_neg (by decide)]
    congr 1
    omega

theorem parseZEnd_natAbs_lt {cs : List Char} {off : Int}
    (h : parseZEnd cs = some off) : off.natAbs < 1440 := by
  unfold parseZEnd at h
  repeat' split at h
  all_goals simp at h
  all_goals obtain ⟨hlt, rfl⟩ := h
  all_goals omega

theorem strptime_offMin_lt {s : String} {dt : DT} (h : strptime s = some dt) :
    dt.offMin.natAbs < 1440 := by
  unfold strptime at h
  simp only [bind, Option.bind_eq_some, pure, Option.some.injEq] at h
  obtain ⟨⟨day, r1⟩, h1, r2, h2, ⟨month, r3⟩, h3, r4, h4, ⟨year, r5⟩, h5,
    r6, h6, ⟨hour, r7⟩, h7, r8, h8, ⟨minute, r9⟩, h9, r10, h10,
    ⟨second, r11⟩, h11, r12, h12, off, hoff, hfin⟩ := h
  split at hfin
  · rw [Option.some.injEq] at hfin
    subst hfin
    exact parseZEnd_natAbs_lt hoff
  · exact absurd hfin (by simp)

/-! ### Claims about the normalizer -/

/-- C3: the normalizer keeps its two non-success outcomes apart on every
input line: a blank (whitespace-only) line, and only a blank line, gives
the skip outcome `.ok none` — no record, no error; a non-blank line the
pattern rejects fails with the `ValueError` carrying the offending text;
and a non-blank line the pattern accepts is never reported as a skip
(it yields a record or an error from the timestamp or size field). -/
theorem C3_blank_skip_vs_malformed_error (log : String) :
    (blankLine log = true ∧ build_schema log = .ok none) ∨
    (blankLine log = false ∧ logMatch log = none ∧
      build_schema log = .error ("Could not parse log line: " ++ log)) ∨
    (blankLine log = false ∧ logMatch log ≠ none ∧ build_schema log ≠ .ok none) := by
  by_cases hb : blankLine log = true
  · exact Or.inl ⟨hb, build_schema_blank hb⟩
  · rw [Bool.not_eq_true] at hb
    cases hm : logMatch log with
    | none => exact Or.inr (Or.inl ⟨hb, rfl, build_schema_nomatch hb hm⟩)
    | some d =>
      refine Or.inr (Or.inr ⟨hb, by simp, ?_⟩)
      rw [build_schema_matched hb hm]
      cases hs : strptime d.time_local with
      | none => rw [finishSchema_badtime hs]; simp
      | some dt =>
        by_cases hbb : d.body_bytes_sent ≠ "-" ∧ pyInt d.body_bytes_sent = none
        · rw [finishSchema_badsize hs hbb]; simp
        · rw [finishSchema_ok hs hbb]; simp

/-- C7: for every line the normalizer accepts, the literal `-`
placeholder in the user, size, referer and user-agent fields is mapped
to absent (`none`), never kept as the string `-`; the status code is
stored as the integer value of its three digits; and the derived
ISO-8601 timestamp is `isoformat` of the datetime parsed from the
bracketed timestamp with layout `%d/%b/%Y:%H:%M:%S %z`, whose rendered
`±HH:MM` suffix encodes exactly the parsed UTC offset. -/
theorem C7_placeholder_status_offset (log : String) (s : Schema)
    (h : build_schema log = .ok (some s)) :
    s.remote_user ≠ some "-" ∧ s.http_referer ≠ some "-" ∧ s.http_user_agent ≠ some "-" ∧
    (∃ d : LogGroups, logMatch log = some d ∧
      s.remote_user = (if d.remote_user = "-" then none else some d.remote_user) ∧
      s.body_bytes_sent = (if d.body_bytes_sent = "-" then none else pyInt d.body_bytes_sent) ∧
      s.http_referer = (if d.http_referer = "-" then none else some d.http_referer) ∧
      s.http_user_agent = (if d.http_user_agent = "-" then none else some d.http_user_agent) ∧
      s.status = digitsNat d.status.data ∧
      s.time_local = d.time_local) ∧
    (∃ dt : DT, strptime s.time_local = some dt ∧ s.timestamp = isoformat dt ∧
      isoOffsetMin s.timestamp = some dt.offMin) := by
  by_cases hb : blankLine log = true
  · rw [build_schema_blank hb] at h
    exact absurd h (by simp)
  · rw [Bool.not_eq_true] at hb
    cases hm : logMatch log with
    | none =>
      rw [build_schema_nomatch hb hm] at h
      exact absurd h (by simp)
    | some d =>
      rw [build_schema_matched hb hm] at h
      cases hs : strptime d.time_local with
      | none =>
        rw [finishSchema_badtime hs] at h
        exact absurd h (by simp)
      | some dt =>
        by_cases hbb : d.body_bytes_sent ≠ "-" ∧ pyInt d.body_bytes_sent = none
        · rw [finishSchema_badsize hs hbb] at h
          exact absurd h (by simp)
        · rw [finishSchema_ok hs hbb] at h
          rw [Except.ok.injEq, Option.some.injEq] at h
          subst h
          refine ⟨?_, ?_, ?_, ⟨d, rfl, rfl, rfl, rfl, rfl, rfl, rfl⟩,
            dt, hs, rfl, isoOffsetMin_isoformat dt (strptime_offMin_lt hs)⟩
          · simp only [schemaOf]
            split <;> simp_all
          · simp only [schemaOf]
            split <;> simp_all
          · simp only [schemaOf]
            split <;> simp_all

/-- The line and record of the C7 witness. -/
def c7Line : String :=
  "127.0.0.1 - frank [10/Oct/2000:13:55:36 -0700] \"GET /apache_pb.gif HTTP/1.0\" 200 2326 \"-\" \"Mozilla/4.08 (Win98)\""

def c7Rec : Schema :=
  { remote_addr := "127.0.0.1", remote_user := some "frank",
    time_local := "10/Oct/2000:13:55:36 -0700",
    timestamp := "2000-10-10T13:55:36-07:00",
    request := "GET /apache_pb.gif HTTP/1.0", status := 200,
    body_bytes_sent := some 2326, http_referer := none,
    http_user_agent := some "Mozilla/4.08 (Win98)" }

/-- Witness for C7 at a concrete accepted line: the `-` referer maps to
absent, the status is the integer 200, and the ISO timestamp carries the
original `-0700` offset as `-07:00`. -/
theorem C7_placeholder_status_offset_witness :
    c7Rec.remote_user ≠ some "-" ∧ c7Rec.http_referer ≠ some "-" ∧
    c7Rec.http_user_agent ≠ some "-" ∧
    (∃ d : LogGroups, logMatch c7Line = some d ∧
      c7Rec.remote_user = (if d.remote_user = "-" then none else some d.remote_user) ∧
      c7Rec.body_bytes_sent = (if d.body_bytes_sent = "-" then none else pyInt d.body_bytes_sent) ∧
      c7Rec.http_referer = (if d.http_referer = "-" then none else some d.http_referer) ∧
      c7Rec.http_user_agent = (if d.http_user_agent = "-" then none else some d.http_user_agent) ∧
      c7Rec.status = digitsNat d.status.data ∧
      c7Rec.time_local = d.time_local) ∧
    (∃ dt : DT, strptime c7Rec.time_local = some dt ∧ c7Rec.timestamp = isoformat dt ∧
      isoOffsetMin c7Rec.timestamp = some dt.offMin) :=
  C7_placeholder_status_offset c7Line c7Rec rfl

/-! ## Grouping stage

The orchestrator does `from preprocessing import preprocess` and calls
`preprocess()` for the grouped-logs dict, but no function of that name
exists in the repository's files — only its caller does.  The grouping
it performs is therefore modelled from the spec. -/

/-- Modelled from the spec (supporting `group`): one record is appended
to its address's ordered group; a new address opens a new group at the
end of the mapping, as Python dict insertion order does. -/
def insertRecord : GroupedLogs → String → Schema → GroupedLogs
  | [], a, r => [(a, [r])]
  | (k, v) :: rest, a, r =>
    if k = a then (k, v ++ [r]) :: rest else (k, v) :: insertRecord rest a r

/-- Modelled from the spec: the grouping stage (the `preprocess` function
the orchestrator imports is missing from the repository's source files)
"partitions the ordered sequence of normalized records into a mapping
keyed by source address, preserving per-address arrival order", with
addresses "compared by exact string equality" and insertion order per
key reflecting original file order. -/
def group (records : List Schema) : GroupedLogs :=
  records.foldl (fun m r => insertRecord m r.remote_addr r) []

/-! ## Detector set (`src/detectors.py`) -/

/-- Python's substring test `needle in hay` on strings. -/
def containsSub (hay needle : String) : Bool :=
  hay.data.tails.any (fun t => needle.data.isPrefixOf t)

/-- The module-level `KEYWORDS` tuple of SQL keywords. -/
def KEYWORDS : List String :=
  ["SELECT", "FROM", "WHERE", "GROUP BY", "HAVING",
   "ORDER BY", "UPDATE", "TABLE", "JOIN", "UNION"]

/-- The module-level `SCAN_PATTERNS` tuple. -/
def SCAN_PATTERNS : List String := ["Nmap", "dirb"]

/-- The module-level `LOGIN_REQUESTS` tuple. -/
def LOGIN_REQUESTS : List String := ["POST"]

/-- The iteration order of `for remote_addr, data in logs.items(): for log
in data:` — every (address, record) pair, groups in dict order, records in
list order. -/
def flatten (logs : GroupedLogs) : List (String × Schema) :=
  logs.flatMap (fun kv => kv.2.map (fun entry => (kv.1, entry)))

/-! ### SQL-injection detector -/

/-- The loop body condition of `SQLiDetector.detect`:
`any(KEYWORD in entry['request'] for KEYWORD in KEYWORDS)`. -/
def sqliHit (entry : Schema) : Bool :=
  KEYWORDS.any (fun keyword => containsSub entry.request keyword)

/-- `SQLiDetector.detect`: walk every record of every group, increment
`freq` and append the record to `matches` when its request line contains
an SQL keyword; the returned dict carries no `severity` key. -/
def SQLiDetector.detect (logs : GroupedLogs) : DetectionResult :=
  let r := ((flatten logs).map Prod.snd).foldl
    (fun acc entry => if sqliHit entry then (acc.1 + 1, acc.2 ++ [entry]) else acc)
    ((0 : Int), ([] : List Schema))
  { name := "sql_injection", freq := r.1, «matches» := r.2, severity := none }

/-! ### Scan-pattern detector -/

/-- The loop body condition of `ScanDetector.detect`:
`any(KEYWORD in entry['http_user_agent'] for KEYWORD in SCAN_PATTERNS)`.
When `http_user_agent` is `None` the Python membership test
`KEYWORD in None` raises `TypeError`, so the result is fallible. -/
def scanHit (entry : Schema) : Except String Bool :=
  match entry.http_user_agent with
  | none => .error "TypeError: argument of type NoneType is not iterable"
  | some ua => .ok (SCAN_PATTERNS.any (fun keyword => containsSub ua keyword))

/-- The double loop of `ScanDetector.detect`, threading `freq` and
`detected` and propagating the first exception. -/
def scanGo : List Schema → Int → List Schema → Except String (Int × List Schema)
  | [], freq, detected => .ok (freq, detected)
  | entry :: rest, freq, detected =>
    match scanHit entry with
    | .error e => .error e
    | .ok true => scanGo rest (freq + 1) (detected ++ [entry])
    | .ok false => scanGo rest freq detected

/-- `ScanDetector.detect`: flag every record whose user-agent contains a
scan keyword; raises (propagates `TypeError`) on a record whose
user-agent field is absent. -/
def ScanDetector.detect (logs : GroupedLogs) : Except String DetectionResult :=
  match scanGo ((flatten logs).map Prod.snd) 0 [] with
  | .error e => .error e
  | .ok (freq, detected) =>
    .ok { name := "scan_pattern", freq := freq, «matches» := detected, severity := none }

/-! ### Brute-force detector -/

/-- The loop body condition of `BruteForceDetector.detect`:
`log['status'] != 200 and any(REQ in log['request'] for REQ in
LOGIN_REQUESTS)`. -/
def bfQualifies (log : Schema) : Bool :=
  log.status != 200 && LOGIN_REQUESTS.any (fun req => containsSub log.request req)

/-- Append a key to an insertion-ordered key set unless already present:
`tracker[remote_addr] = entries` grows the `tracker` dict's key set with
`remote_addr` exactly when the key is new. -/
def insKey (keys : List String) (a : String) : List String :=
  if a ∈ keys then keys else keys ++ [a]

/-- The mutable locals of `BruteForceDetector.detect`.  The Python
`tracker` dict maps every offending address to the one shared `entries`
list, so only its key set — kept here in insertion order — ever matters. -/
structure BFState where
  «matches» : List Schema
  trackerKeys : List String
  entries : List Schema
  freq : Int
deriving DecidableEq, Repr

/-- One iteration of the double loop of `BruteForceDetector.detect` over
the (address, record) pair `p`.  `entries.append(log)` grows the single
shared list; `tracker[remote_addr] = entries` adds the address to the
tracker's key set; when the key count exceeds the threshold, `freq` is
set to it and the whole of `entries` is appended to `matches` again. -/
def bfStep (threshold : Nat) (st : BFState) (p : String × Schema) : BFState :=
  if bfQualifies p.2 then
    let entries := st.entries ++ [p.2]
    let keys := insKey st.trackerKeys p.1
    if threshold < keys.length then
      { «matches» := st.«matches» ++ entries, trackerKeys := keys,
        entries := entries, freq := (keys.length : Int) }
    else
      { st with trackerKeys := keys, entries := entries }
  else st

/-- `BruteForceDetector.detect` (keyword-only `threshold` defaults to 5):
the double loop over the grouped logs, then the result dict, which
carries no `severity` key. -/
def BruteForceDetector.detect (logs : GroupedLogs) (threshold : Nat := 5) :
    DetectionResult :=
  let st := (flatten logs).foldl (bfStep threshold) ⟨[], [], [], 0⟩
  { name := "brute_force", freq := st.freq, «matches» := st.«matches», severity := none }

/-! ### Closed-form description of the brute-force detector

The double loop is a fold of `bfStep`; the definitions below restate its
final state without the fold: the qualifying (address, record) pairs in
iteration order, the distinct offending addresses in first-appearance
order, the resulting frequency, and the evidence list — which re-appends
the whole accumulated entries list at every qualifying record processed
while the distinct-address tally exceeds the threshold. -/

/-- The distinct first components of a pair list, in first-appearance
order. -/
def distinctKeys (qs : List (String × Schema)) : List String :=
  qs.foldl (fun keys p => insKey keys p.1) []

/-- The qualifying (address, record) pairs of the grouped logs, in
iteration order. -/
def bfQualifying (logs : GroupedLogs) : List (String × Schema) :=
  (flatten logs).filter (fun p => bfQualifies p.2)

/-- The final frequency: the number of distinct addresses owning a
qualifying record once that number exceeds the threshold, else 0. -/
def bfFreqSpec (threshold : Nat) (qs : List (String × Schema)) : Int :=
  if threshold < (distinctKeys qs).length then ((distinctKeys qs).length : Int) else 0

/-- The final evidence list: for the i-th qualifying record (0-based),
if the distinct-address count of the first i+1 qualifying records exceeds
the threshold, the records of that whole prefix are appended again. -/
def bfMatchesSpec (threshold : Nat) (qs : List (String × Schema)) : List Schema :=
  (List.range qs.length).flatMap (fun i =>
    if threshold < (distinctKeys (qs.take (i + 1))).length
    then (qs.take (i + 1)).map Prod.snd else [])

/-- The detector state after processing exactly the qualifying pairs
`qs`. -/
def bfStateOf (threshold : Nat) (qs : List (String × Schema)) : BFState :=
  { «matches» := bfMatchesSpec threshold qs,
    trackerKeys := distinctKeys qs,
    entries := qs.map Prod.snd,
    freq := bfFreqSpec threshold qs }

theorem length_le_insKey (keys : List String) (a : String) :
    keys.length ≤ (insKey keys a).length := by
  unfold insKey
  split
  · exact le_refl _
  · simp

theorem mem_insKey {keys : List String} {a b : String} :
    b ∈ insKey keys a ↔ b ∈ keys ∨ b = a := by
  unfold insKey
  split
  · rename_i h
    constructor
    · exact Or.inl
    · rintro (hb | rfl)
      · exact hb
      · exact h
  · simp

theorem nodup_insKey {keys : List String} {a : String} (h : keys.Nodup) :
    (insKey keys a).Nodup := by
  unfold insKey
  split
  · exact h
  · rename_i ha
    rw [List.nodup_append]
    refine ⟨h, List.nodup_singleton a, ?_⟩
    intro x hx hxa
    rw [List.mem_singleton] at hxa
    subst hxa
    exact ha hx

theorem distinctKeys_concat (qs : List (String × Schema)) (p : String × Schema) :
    distinctKeys (qs ++ [p]) = insKey (distinctKeys qs) p.1 := by
  unfold distinctKeys
  rw [List.foldl_append]
  rfl

theorem flatMap_congr_mem {α β : Type} {l : List α} {f g : α → List β}
    (h : ∀ a ∈ l, f a = g a) : l.flatMap f = l.flatMap g := by
  induction l with
  | nil => rfl
  | cons a l ih =>
    simp only [List.flatMap_cons]
    rw [h a (List.mem_cons_self a l), ih fun x hx => h x (List.mem_cons_of_mem a hx)]

theorem bfMatchesSpec_concat (threshold : Nat) (qs : List (String × Schema))
    (p : String × Schema) :
    bfMatchesSpec threshold (qs ++ [p]) =
      bfMatchesSpec threshold qs ++
        (if threshold < (distinctKeys (qs ++ [p])).length
         then (qs ++ [p]).map Prod.snd else []) := by
  unfold bfMatchesSpec
  rw [List.length_append, List.length_singleton, List.range_succ, List.flatMap_append]
  congr 1
  · exact flatMap_congr_mem fun i hi => by
      rw [List.take_append_of_le_length (by simpa using List.mem_range.mp hi)]
  · simp only [List.flatMap_cons, List.flatMap_nil, List.append_nil]
    rw [show qs.length + 1 = (qs ++ [p]).length by simp, List.take_length]

/-- Processing one qualifying pair moves the closed-form state one pair
forward. -/
theorem bfStep_stateOf (threshold : Nat) (qs : List (String × Schema))
    (p : String × Schema) (hq : bfQualifies p.2 = true) :
    bfStep threshold (bfStateOf threshold qs) p = bfStateOf threshold (qs ++ [p]) := by
  have hmap : (qs ++ [p]).map Prod.snd = qs.map Prod.snd ++ [p.2] := by
    rw [List.map_append]; rfl
  unfold bfStep bfStateOf
  rw [if_pos hq]
  simp only [bfMatchesSpec_concat, distinctKeys_concat, bfFreqSpec, hmap]
  by_cases htr : threshold < (insKey (distinctKeys qs) p.1).length
  · rw [if_pos htr, if_pos htr, if_pos htr]
  · rw [if_neg htr, if_neg htr, if_neg htr,
      if_neg (fun hlt => htr (lt_of_lt_of_le hlt (length_le_insKey _ _))),
      List.append_nil]

/-- The fold of `bfStep` from the state of `qs` over any pair list lands
on the state of `qs` extended by the qualifying pairs. -/
theorem bfFoldl_stateOf (threshold : Nat) (ps : List (String × Schema)) :
    ∀ qs : List (String × Schema),
      ps.foldl (bfStep threshold) (bfStateOf threshold qs) =
        bfStateOf threshold (qs ++ ps.filter (fun p => bfQualifies p.2)) := by
  induction ps with
  | nil => intro qs; simp
  | cons p rest ih =>
    intro qs
    by_cases hq : bfQualifies p.2 = true
    · rw [List.foldl_cons, bfStep_stateOf threshold qs p hq, ih (qs ++ [p]),
        List.filter_cons, List.append_assoc]
      simp only [hq, if_true]
      rfl
    · rw [List.foldl_cons, show bfStep threshold (bfStateOf threshold qs) p =
          bfStateOf threshold qs by unfold bfStep; rw [if_neg hq],
        ih qs, List.filter_cons]
      simp only [hq, if_false, Bool.false_eq_true]

theorem nodup_foldl_insKey {α : Type} (key : α → String) (qs : List α) :
    ∀ acc : List String, acc.Nodup →
      (qs.foldl (fun keys x => insKey keys (key x)) acc).Nodup := by
  induction qs with
  | nil => intro acc h; exact h
  | cons p rest ih => intro acc h; exact ih _ (nodup_insKey h)

theorem mem_foldl_insKey {α : Type} (key : α → String) (qs : List α) :
    ∀ (acc : List String) (a : String),
      a ∈ qs.foldl (fun keys x => insKey keys (key x)) acc ↔
        a ∈ acc ∨ a ∈ qs.map key := by
  induction qs with
  | nil => intro acc a; simp
  | cons p rest ih =>
    intro acc a
    rw [List.foldl_cons, ih]
    simp [mem_insKey, or_assoc]

theorem distinctKeys_nodup (qs : List (String × Schema)) : (distinctKeys qs).Nodup :=
  nodup_foldl_insKey Prod.fst qs [] List.nodup_nil

theorem mem_distinctKeys (qs : List (String × Schema)) (a : String) :
    a ∈ distinctKeys qs ↔ a ∈ qs.map Prod.fst := by
  rw [distinctKeys, mem_foldl_insKey Prod.fst]
  simp

/-! ### Grouping-stage lemmas -/

theorem map_fst_insertRecord (m : GroupedLogs) (a : String) (r : Schema) :
    (insertRecord m a r).map Prod.fst = insKey (m.map Prod.fst) a := by
  induction m with
  | nil => simp [insertRecord, insKey]
  | cons kv rest ih =>
    obtain ⟨k, v⟩ := kv
    by_cases hk : k = a
    · subst hk
      simp [insertRecord, insKey]
    · simp only [insertRecord, if_neg hk, List.map_cons, ih, insKey]
      by_cases hmem : a ∈ rest.map Prod.fst
      · rw [if_pos hmem, if_pos (by simp [hmem])]
      · rw [if_neg hmem, if_neg (by
          simp only [List.mem_cons]
          rintro (rfl | hc)
          · exact hk rfl
          · exact hmem hc)]
        simp

theorem map_fst_group_foldl (records : List Schema) :
    ∀ m : GroupedLogs,
      (records.foldl (fun m r => insertRecord m r.remote_addr r) m).map Prod.fst =
        records.foldl (fun ks r => insKey ks r.remote_addr) (m.map Prod.fst) := by
  induction records with
  | nil => intro m; rfl
  | cons r rs ih =>
    intro m
    rw [List.foldl_cons, ih, List.foldl_cons, map_fst_insertRecord]

theorem sum_insertRecord (m : GroupedLogs) (a : String) (r : Schema) :
    ((insertRecord m a r).map (fun kv => kv.2.length)).sum =
      (m.map (fun kv => kv.2.length)).sum + 1 := by
  induction m with
  | nil => simp [insertRecord]
  | cons kv rest ih =>
    obtain ⟨k, v⟩ := kv
    by_cases hk : k = a
    · simp only [insertRecord, if_pos hk, List.map_cons, List.sum_cons, List.length_append]
      simp
      omega
    · simp only [insertRecord, if_neg hk, List.map_cons, List.sum_cons, ih]
      omega

theorem sum_group_foldl (records : List Schema) :
    ∀ m : GroupedLogs,
      ((records.foldl (fun m r => insertRecord m r.remote_addr r) m).map
        (fun kv => kv.2.length)).sum =
      (m.map (fun kv => kv.2.length)).sum + records.length := by
  induction records with
  | nil => intro m; simp
  | cons r rs ih =>
    intro m
    rw [List.foldl_cons, ih, sum_insertRecord, List.length_cons]
    omega

/-- `optAppend o l`: the group contents at one address after appending
the records `l` for that address to a mapping whose group there was
`o`. -/
def optAppend (o : Option (List Schema)) (l : List Schema) : Option (List Schema) :=
  match o with
  | some v => some (v ++ l)
  | none => if l.isEmpty then none else some l

theorem lookup_insertRecord (m : GroupedLogs) (k : String) (r : Schema) (a : String) :
    (insertRecord m k r).lookup a =
      if a = k then some ((m.lookup a).getD [] ++ [r]) else m.lookup a := by
  induction m with
  | nil =>
    by_cases hak : a = k
    · subst hak
      simp [insertRecord, List.lookup]
    · have hb : (a == k) = false := beq_eq_false_iff_ne.mpr hak
      simp [insertRecord, List.lookup, hb, hak]
  | cons kv rest ih =>
    obtain ⟨k', v⟩ := kv
    by_cases hk : k' = k
    · subst hk
      by_cases hak : a = k'
      · subst hak
        simp [insertRecord, List.lookup]
      · have hb : (a == k') = false := beq_eq_false_iff_ne.mpr hak
        simp [insertRecord, List.lookup, hb, hak]
    · rw [insertRecord, if_neg hk]
      by_cases hak : a = k'
      · subst hak
        simp [List.lookup, if_neg hk]
      · have hb : (a == k') = false := beq_eq_false_iff_ne.mpr hak
        simp [List.lookup, hb, ih]

theorem lookup_group_foldl (records : List Schema) :
    ∀ (m : GroupedLogs) (a : String),
      (records.foldl (fun m r => insertRecord m r.remote_addr r) m).lookup a =
        optAppend (m.lookup a) (records.filter (fun r => r.remote_addr = a)) := by
  induction records with
  | nil =>
    intro m a
    cases h : m.lookup a <;> simp [optAppend, h]
  | cons r rs ih =>
    intro m a
    rw [List.foldl_cons, ih, lookup_insertRecord, List.filter_cons]
    by_cases hra : a = r.remote_addr
    · rw [if_pos hra, if_pos (by simp [hra])]
      cases h : m.lookup a with
      | some v => simp [optAppend, h]
      | none => simp [optAppend, h]
    · rw [if_neg hra, if_neg (by
        simp only [decide_eq_true_eq]
        exact fun h => hra h.symm)]

/-- A concrete record for evaluating the detectors at specific inputs;
fields that never influence the detectors are fixed. -/
def sampleRec (addr req : String) (st : Nat) (ua : Option String) : Schema :=
  { remote_addr := addr, remote_user := none,
    time_local := "10/Oct/2020:13:55:36 -0700",
    timestamp := "2020-10-10T13:55:36-07:00",
    request := req, status := st, body_bytes_sent := none,
    http_referer := none, http_user_agent := ua }

/-- Seven addresses, each with exactly one qualifying failed-login
record: past the default threshold of 5 the accumulated `entries` list is
re-appended to `matches` at each further trigger, duplicating earlier
evidence records. -/
def bfOverflowLogs : GroupedLogs :=
  [("198.51.100.1", [sampleRec "198.51.100.1" "POST /login" 401 none]),
   ("198.51.100.2", [sampleRec "198.51.100.2" "POST /login" 401 none]),
   ("198.51.100.3", [sampleRec "198.51.100.3" "POST /login" 401 none]),
   ("198.51.100.4", [sampleRec "198.51.100.4" "POST /login" 401 none]),
   ("198.51.100.5", [sampleRec "198.51.100.5" "POST /login" 401 none]),
   ("198.51.100.6", [sampleRec "198.51.100.6" "POST /login" 401 none]),
   ("198.51.100.7", [sampleRec "198.51.100.7" "POST /login" 401 none])]

/-! ### Claims about the detectors -/

/-- C9 (settled against the spec-modelled `group`): for every record
sequence, the sum of the per-address group sizes equals the input
length; the group stored under each address is exactly the subsequence
of input records with that address, in input order (so no record is
dropped or duplicated and relative order within a group is kept); and
no address owns two groups. -/
theorem C9_grouping_partitions_records (records : List Schema) :
    ((group records).map (fun kv => kv.2.length)).sum = records.length ∧
    (∀ a : String, (group records).lookup a =
      (if (records.filter (fun r => r.remote_addr = a)).isEmpty
       then none else some (records.filter (fun r => r.remote_addr = a)))) ∧
    ((group records).map Prod.fst).Nodup := by
  refine ⟨?_, fun a => ?_, ?_⟩
  · rw [group, sum_group_foldl]
    simp
  · rw [group, lookup_group_foldl]
    rfl
  · rw [group, map_fst_group_foldl]
    exact nodup_foldl_insKey Schema.remote_addr records [] List.nodup_nil

/-- C1 counterexample: with seven addresses each owning exactly one
qualifying record (so seven distinct qualifying records in all), the
returned frequency is 7 as the claim says, but `matches` holds 13
records, not 7 — the record of the first address appears twice — so the
matches are not the accumulated qualifying records with each qualifying
record appearing once. -/
theorem C1_bruteforce_matches_duplicated :
    (BruteForceDetector.detect bfOverflowLogs).freq = 7 ∧
    (bfQualifying bfOverflowLogs).length = 7 ∧
    (bfQualifying bfOverflowLogs).Nodup ∧
    (BruteForceDetector.detect bfOverflowLogs).«matches».length = 13 ∧
    (BruteForceDetector.detect bfOverflowLogs).«matches».count
      (sampleRec "198.51.100.1" "POST /login" 401 none) = 2 := by
  decide

/-- C1 (amended): a record qualifies exactly when its request line
contains "POST" and its status code is not 200, and the returned
frequency equals the number of distinct addresses owning at least one
qualifying record once that number exceeds the threshold (default 5),
else 0; but the returned matches are not the qualifying records listed
once each: for the i-th qualifying record in iteration order, whenever
the distinct-address count of the first i+1 qualifying records already
exceeds the threshold, the entire accumulated list of the first i+1
qualifying records is appended to the evidence again, so qualifying
records processed earlier recur in the evidence once per later trigger. -/
theorem C1_bruteforce_detect_characterized (threshold : Nat) (logs : GroupedLogs) :
    BruteForceDetector.detect logs threshold =
      { name := "brute_force",
        freq := bfFreqSpec threshold (bfQualifying logs),
        «matches» := bfMatchesSpec threshold (bfQualifying logs),
        severity := none } ∧
    (distinctKeys (bfQualifying logs)).Nodup ∧
    (∀ a, a ∈ distinctKeys (bfQualifying logs) ↔ a ∈ (bfQualifying logs).map Prod.fst) ∧
    (∀ p : String × Schema, p ∈ bfQualifying logs ↔
      p ∈ flatten logs ∧ (p.2.status ≠ 200 ∧ containsSub p.2.request "POST" = true)) := by
  refine ⟨?_, distinctKeys_nodup _, fun a => mem_distinctKeys _ a, fun p => ?_⟩
  · have hinit : (⟨[], [], [], 0⟩ : BFState) = bfStateOf threshold [] := by
      unfold bfStateOf bfFreqSpec bfMatchesSpec distinctKeys
      simp
    unfold BruteForceDetector.detect
    rw [hinit, bfFoldl_stateOf threshold (flatten logs) [], List.nil_append]
    rfl
  · rw [bfQualifying, List.mem_filter]
    simp [bfQualifies, LOGIN_REQUESTS]

/-- C2 (code bug): the scan-pattern detector does not treat an absent
user-agent field as non-matching — the membership test
`KEYWORD in entry['http_user_agent']` is applied to `None` and raises
`TypeError`, aborting `detect`; on records whose user-agent is present
the intended substring rule does hold (`dirb` flagged, plain
`Mozilla/5.0` not). -/
theorem C2_scan_detector_raises_on_absent_user_agent :
    ScanDetector.detect
        [("203.0.113.7", [sampleRec "203.0.113.7" "GET /index.html" 200 none])] =
      .error "TypeError: argument of type NoneType is not iterable" ∧
    ScanDetector.detect
        [("203.0.113.7",
          [sampleRec "203.0.113.7" "GET /index.html" 200 (some "Mozilla/5.0 dirb/2.22"),
           sampleRec "203.0.113.7" "GET /a" 200 (some "Mozilla/5.0")])] =
      .ok { name := "scan_pattern", freq := 1,
            «matches» := [sampleRec "203.0.113.7" "GET /index.html" 200
              (some "Mozilla/5.0 dirb/2.22")],
            severity := none } :=
  ⟨rfl, rfl⟩

/-- C4 counterexample: on the empty grouped mapping the SQL-injection
detector's finding carries no severity field at all (the returned dict
has no `severity` key, modelled as `none`), so its severity is not the
LOW label the claim states. -/
theorem C4_empty_input_severity_absent :
    (SQLiDetector.detect []).severity = none ∧
    (SQLiDetector.detect []).severity ≠ some Severity.LOW :=
  ⟨rfl, by decide⟩

/-- C4 (amended): on the empty grouped mapping every detector returns,
without raising, a finding with frequency 0 and an empty matches list;
no severity field is set on any of them (the severity key is absent —
the implicit default LOW of the data model — rather than an explicit LOW
value). -/
theorem C4_empty_input_amended :
    BruteForceDetector.detect [] =
      { name := "brute_force", freq := 0, «matches» := [], severity := none } ∧
    SQLiDetector.detect [] =
      { name := "sql_injection", freq := 0, «matches» := [], severity := none } ∧
    ScanDetector.detect [] =
      .ok { name := "scan_pattern", freq := 0, «matches» := [], severity := none } :=
  ⟨rfl, rfl, rfl⟩

/-! ### Claims about the classifier -/

/-- C5: for every finding whose rule name has a threshold entry
`(lo, me, hi)` and whose frequency is positive, the classifier assigns
HIGH when `freq ≥ hi`, else MEDIUM when `freq ≥ me`, and otherwise
leaves the finding — in particular its severity, the default LOW for a
fresh finding — unchanged.  The boundary instances (frequency exactly 7
is MEDIUM, exactly 10 is HIGH, under the default table) are checked in
the witness. -/
theorem C5_threshold_classification (d : DetectionResult) (lo me hi : Int)
    (hlk : THRESHOLDS.lookup d.name = some (lo, me, hi)) (hpos : 0 < d.freq) :
    Classifier.classifyOne d =
      (if hi ≤ d.freq then { d with severity := some Severity.HIGH }
       else if me ≤ d.freq then { d with severity := some Severity.MEDIUM }
       else d) :=
  classifyOne_of_thresholds hpos hlk

/-- Witness for C5 at the threshold boundaries of the default table
(5, 7, 10): frequency exactly 7 classifies MEDIUM, frequency exactly 10
classifies HIGH. -/
theorem C5_threshold_classification_witness :
    Classifier.classifyOne
        { name := "sql_injection", freq := 7, «matches» := [], severity := some Severity.LOW } =
      { name := "sql_injection", freq := 7, «matches» := [], severity := some Severity.MEDIUM } ∧
    Classifier.classifyOne
        { name := "brute_force", freq := 10, «matches» := [], severity := some Severity.LOW } =
      { name := "brute_force", freq := 10, «matches» := [], severity := some Severity.HIGH } := by
  refine ⟨?_, ?_⟩
  · rw [C5_threshold_classification _ 5 7 10 (by decide) (by decide)]
    decide
  · rw [C5_threshold_classification _ 5 7 10 (by decide) (by decide)]
    decide

/-- C6: the classifier skips — leaves entirely unchanged, in every field,
without raising — any finding whose frequency is 0 or negative and any
finding whose rule name has no entry in the threshold table, while the
rest of the list before and after it is classified exactly as it would be
on its own. -/
theorem C6_classify_skips_and_continues (pre post : List DetectionResult)
    (d : DetectionResult)
    (h : d.freq ≤ 0 ∨ THRESHOLDS.lookup d.name = none) :
    Classifier.classify (pre ++ d :: post) =
      Classifier.classify pre ++ d :: Classifier.classify post := by
  have hd : Classifier.classifyOne d = d :=
    h.elim classifyOne_skip_of_nonpos classifyOne_skip_of_unknown
  simp [Classifier.classify, hd]

/-- Witness for C6: a zero-frequency finding and an unknown-rule finding
are returned untouched while the surrounding findings still get
classified. -/
theorem C6_classify_skips_and_continues_witness :
    Classifier.classify
        ([{ name := "sql_injection", freq := 12, «matches» := [], severity := none }] ++
          { name := "made_up_rule", freq := 3, «matches» := [], severity := none } ::
          [{ name := "scan_pattern", freq := 0, «matches» := [], severity := none }]) =
      Classifier.classify [{ name := "sql_injection", freq := 12, «matches» := [], severity := none }] ++
        { name := "made_up_rule", freq := 3, «matches» := [], severity := none } ::
        Classifier.classify [{ name := "scan_pattern", freq := 0, «matches» := [], severity := none }] :=
  C6_classify_skips_and_continues _ _ _ (Or.inr (by decide))

/-- C8: classification is idempotent — classifying an already-classified
finding list a second time (the threshold table is the fixed module-level
dict) yields the same list, severities included. -/
theorem C8_classify_idempotent (detections : List DetectionResult) :
    Classifier.classify (Classifier.classify detections) = Classifier.classify detections := by
  unfold Classifier.classify
  rw [List.map_map]
  exact List.map_congr_left fun d _ => classifyOne_idem d

/-- C10: the classifier never writes the LOW severity value: each finding
is either returned with every field — name, frequency, matches, severity,
an absent severity included — exactly as given, or returned with only its
severity replaced, by MEDIUM or by HIGH; and every finding it does not
promote (frequency ≤ 0, unknown rule name, or frequency below the medium
threshold) is returned exactly as given. -/
theorem C10_classifier_never_writes_LOW (d : DetectionResult) :
    (Classifier.classifyOne d = d ∨
     Classifier.classifyOne d = { d with severity := some Severity.MEDIUM } ∨
     Classifier.classifyOne d = { d with severity := some Severity.HIGH }) ∧
    (d.freq ≤ 0 → Classifier.classifyOne d = d) ∧
    (THRESHOLDS.lookup d.name = none → Classifier.classifyOne d = d) ∧
    (∀ lo me hi, THRESHOLDS.lookup d.name = some (lo, me, hi) → d.freq < me →
      Classifier.classifyOne d = d) := by
  refine ⟨?_, classifyOne_skip_of_nonpos, classifyOne_skip_of_unknown, ?_⟩
  · by_cases h0 : d.freq ≤ 0
    · exact Or.inl (classifyOne_skip_of_nonpos h0)
    · cases hlk : THRESHOLDS.lookup d.name with
      | none => exact Or.inl (classifyOne_skip_of_unknown hlk)
      | some t =>
        obtain ⟨lo, me, hi⟩ := t
        rw [classifyOne_of_thresholds (by omega) hlk]
        by_cases hh : hi ≤ d.freq
        · exact Or.inr (Or.inr (by rw [if_pos hh]))
        · by_cases hm : me ≤ d.freq
          · exact Or.inr (Or.inl (by rw [if_neg hh, if_pos hm]))
          · exact Or.inl (by rw [if_neg hh, if_neg hm])
  · intro lo me hi hlk hlt
    by_cases h0 : d.freq ≤ 0
    · exact classifyOne_skip_of_nonpos h0
    · have ht := lookup_THRESHOLDS_eq hlk
      simp only [Prod.mk.injEq] at ht
      obtain ⟨rfl, rfl, rfl⟩ := ht
      rw [classifyOne_of_thresholds (by omega) hlk, if_neg (by omega), if_neg (by omega)]
